import Mathlib

/-!
# Verification of the bidict core (`_base.py`, `_dup.py`)

A shallow embedding of the bidirectional-mapping core:

* `OnDupAction`, `OnDup` and the module-level policies translate `_dup.py`.
* `Bidict` models a `BidictBase` instance's observable state: its two backing
  dicts `_fwdm` and `_invm`.  The base (unordered) variant guarantees no
  iteration order, so each backing dict is modelled by a `Finmap` (a finite
  map with extensional equality), with Python's `d[k] = v` as `Finmap.insert`,
  `del d[k]` as `Finmap.erase`, `d.get(k, _MISS)` as `Finmap.lookup` (the
  `_MISS` sentinel from `_sntl.py` becomes `Option.none`) and `len(d)` as the
  cardinality of the key set.
* `Bidict.dedup_item`, `Bidict.write_item`, `Bidict.undo_write`, `Bidict.pop`,
  `Bidict.put`, `Bidict.update_no_dup_check`, `Bidict.update_no_rollback`,
  `Bidict.update_with_rollback` and the `Bidict.update` dispatcher translate
  the correspondingly named `BidictBase` methods.  Raising an exception is
  modelled by `Except.error`; for the update paths the error also carries the
  state the instance is left in when the exception propagates.
-/

set_option autoImplicit false

/-- Decidable equality of `Except` results, for evaluating the model on
concrete inputs. -/
instance {ε α : Type} [DecidableEq ε] [DecidableEq α] : DecidableEq (Except ε α) :=
  fun x y =>
    match x, y with
    | .ok a, .ok b =>
      if h : a = b then isTrue (by rw [h]) else isFalse (fun hh => h (Except.ok.inj hh))
    | .error a, .error b =>
      if h : a = b then isTrue (by rw [h]) else isFalse (fun hh => h (Except.error.inj hh))
    | .ok _, .error _ => isFalse (fun hh => Except.noConfusion hh)
    | .error _, .ok _ => isFalse (fun hh => Except.noConfusion hh)

namespace BidictSpec

/-! ## `_dup.py`: duplication policies -/

/-- `OnDupAction`: an action to take to prevent duplication from occurring. -/
inductive OnDupAction : Type where
  | RAISE : OnDupAction
  | DROP_OLD : OnDupAction
  | DROP_NEW : OnDupAction
deriving DecidableEq

/-- `OnDup`: three `OnDupAction`s for the three kinds of duplication, with the
field defaults of the `NamedTuple` in `_dup.py`. -/
structure OnDup : Type where
  key : OnDupAction := .DROP_OLD
  val : OnDupAction := .RAISE
  kv : OnDupAction := .RAISE
deriving DecidableEq

/-- `ON_DUP_DEFAULT = OnDup()`. -/
def ON_DUP_DEFAULT : OnDup := {}

/-- `ON_DUP_RAISE`. -/
def ON_DUP_RAISE : OnDup := { key := .RAISE, val := .RAISE, kv := .RAISE }

/-- `ON_DUP_DROP_OLD`. -/
def ON_DUP_DROP_OLD : OnDup := { key := .DROP_OLD, val := .DROP_OLD, kv := .DROP_OLD }

/-- Python's `a in on_dup` membership test on the `OnDup` named tuple. -/
def OnDup.contains (od : OnDup) (a : OnDupAction) : Bool :=
  od.key == a || od.val == a || od.kv == a

/-! ## `_exc.py`: error taxonomy

Modelled from the spec: `_exc.py` is not part of the sources; the spec says
KeyDuplication / ValueDuplication / KeyAndValueDuplication are distinct,
reportable error kinds (all subtypes of a general DuplicationError), carrying
the offending key and/or value as in the `raise` sites of `_base.py`. -/

/-- The three duplication error kinds, as one sum type (they are the only
subtypes of `DuplicationError` ever raised by the core). -/
inductive DuplicationError (K V : Type) : Type where
  | KeyDuplicationError (key : K) : DuplicationError K V
  | ValueDuplicationError (val : V) : DuplicationError K V
  | KeyAndValueDuplicationError (key : K) (val : V) : DuplicationError K V
deriving DecidableEq

/-- The exceptions that surface from the core as written: the
`DuplicationError` family, and Python's `NameError`, raised when an unbound
name is evaluated (as `_Marker` is at `_base.py:322`).  A `NameError` is not
a `DuplicationError`, so `except DuplicationError` clauses do not catch
it. -/
inductive PyError (K V : Type) : Type where
  | NameError (name : String) : PyError K V
  | dup (e : DuplicationError K V) : PyError K V
deriving DecidableEq

/-! ## `_base.py`: result records and the bidict state -/

/-- `_DedupResult(isdupkey, isdupval, invbyval, fwdbykey)`: the ephemeral
result of `_dedup_item`.  `invbyval` is the existing key for the new value
(`oldkey`), `fwdbykey` the existing value for the new key (`oldval`); the
`_MISS` sentinel is modelled as `none`. -/
structure DedupResult (K V : Type) : Type where
  isdupkey : Bool
  isdupval : Bool
  invbyval : Option K
  fwdbykey : Option V
deriving DecidableEq

/-- `_WriteResult(key, val, oldkey, oldval)`: what `_write_item` returns,
consumed by `_undo_write`. -/
structure WriteResult (K V : Type) : Type where
  key : K
  val : V
  oldkey : Option K
  oldval : Option V
deriving DecidableEq

/-- `_NODUP = _FailedResult(False, False, _MISS, _MISS)`. -/
def NODUP {K V : Type} : DedupResult K V := ⟨false, false, none, none⟩

/-- The observable state of a `BidictBase[KT, VT]` instance: the two backing
dicts `_fwdm : KT → VT` and `_invm : VT → KT`. -/
structure Bidict (K V : Type) : Type where
  fwdm : Finmap fun _ : K => V
  invm : Finmap fun _ : V => K

namespace Bidict

variable {K V : Type} [DecidableEq K] [DecidableEq V]

instance : DecidableEq (Bidict K V) := fun a b => by
  cases a; cases b
  exact decidable_of_iff _ (iff_of_eq (Bidict.mk.injEq _ _ _ _)).symm

/-- A freshly constructed empty bidict: `_fwdm = {}`, `_invm = {}`. -/
def empty : Bidict K V := ⟨∅, ∅⟩

/-- `len(self)` = `len(self._fwdm)`, the number of contained items. -/
def size (bd : Bidict K V) : ℕ := bd.fwdm.keys.card

/-- `BidictBase._pop`: `val = self._fwdm.pop(key); del self._invm[val]`.
A missing key is Python's `KeyError`, modelled as `Except.error ()`. -/
def pop (bd : Bidict K V) (key : K) : Except Unit (Bidict K V × V) :=
  match bd.fwdm.lookup key with
  | some val => .ok (⟨bd.fwdm.erase key, bd.invm.erase val⟩, val)
  | none => .error ()

/-- `BidictBase._already_have` (static): `isdup = oldkey == key`.  Its
`assert isdup == (oldval == val)` agreement check is verified separately
(see `good_already_have_agrees`). -/
def already_have (key : K) (_val : V) (oldkey : K) (_oldval : V) : Bool :=
  oldkey == key

/-- `BidictBase._dedup_item` exactly as written.  The method reads
`oldval = fwdm.get(key, _MISS)` and `oldkey = invm.get(val, _MISS)` (pure
reads) and computes the `_DedupResult`; its first branch (line 322) then
evaluates `isinstance(oldval, _Marker)` — and `_Marker` is bound nowhere in
`_base.py`: line 43 imports only `_Sentinel`, `_MISS` and `_NOOP` from
`._sntl`, nothing else defines it, and the merge TODO on line 73 records
that `_Marker` was dropped.  So every call raises `NameError("_Marker")`
before any policy slot, `_already_have` check, or duplication error is
reached; the decision table in the method's docstring never executes. -/
def dedup_item_asWritten (bd : Bidict K V) (key : K) (val : V) (_on_dup : OnDup) :
    Except (PyError K V) (Option (DedupResult K V)) :=
  let oldval := bd.fwdm.lookup key
  let oldkey := bd.invm.lookup val
  let _dedup_result : DedupResult K V := ⟨oldval.isSome, oldkey.isSome, oldkey, oldval⟩
  -- line 322: `if not isinstance(oldval, _Marker) and not isinstance(oldkey, _Marker):`
  .error (.NameError "_Marker")

/-- `BidictBase._write_item`: `fwdm[key] = val; invm[val] = key;
if isdupkey: del invm[oldval]; if isdupval: del fwdm[oldkey]`, returning the
`_WriteResult`.  (When `isdupkey`/`isdupval` is set the corresponding old
entry was recorded by `_dedup_item`, so the `none` arms are unreachable in
every flow of the source; they leave the store untouched.) -/
def write_item (bd : Bidict K V) (key : K) (val : V) (dr : DedupResult K V) :
    Bidict K V × WriteResult K V :=
  let fwdm1 := bd.fwdm.insert key val
  let invm1 := bd.invm.insert val key
  let invm2 :=
    match dr.isdupkey, dr.fwdbykey with
    | true, some oldval => invm1.erase oldval
    | _, _ => invm1
  let fwdm2 :=
    match dr.isdupval, dr.invbyval with
    | true, some oldkey => fwdm1.erase oldkey
    | _, _ => fwdm1
  (⟨fwdm2, invm2⟩, ⟨key, val, dr.invbyval, dr.fwdbykey⟩)

/-- `BidictBase._put` as written: dedup, then write when the result is a
`_DedupResult` (`.ok (some _)` here); `_NOOP` would leave the bidict
unchanged.  Since `_dedup_item` raises on every call, the exception
propagates out of `_put` before anything is written, leaving the instance
unchanged. -/
def put_asWritten (bd : Bidict K V) (key : K) (val : V) (on_dup : OnDup) :
    Except (PyError K V) (Bidict K V) :=
  match dedup_item_asWritten bd key val on_dup with
  | .error e => .error e
  | .ok none => .ok bd
  | .ok (some dr) => .ok (write_item bd key val dr).1

/-- `BidictBase._undo_write`: reverse one recorded write.  When neither side
was a duplicate the written pair is simply popped; otherwise the displaced
old associations are restored and the residual new entries deleted.  (As in
`write_item`, the `none` arms of the `oldval`/`oldkey` matches are
unreachable: a set `isdupkey`/`isdupval` flag comes with a recorded old
entry.  The `KeyError` arm of `pop` is likewise unreachable when undoing a
write that was recorded.) -/
def undo_write (bd : Bidict K V) (dr : DedupResult K V) (wr : WriteResult K V) :
    Bidict K V :=
  if !dr.isdupkey && !dr.isdupval then
    match pop bd wr.key with
    | .ok (bd2, _) => bd2
    | .error _ => bd
  else
    let s1 : Bidict K V :=
      if dr.isdupkey then
        match wr.oldval with
        | some oldval =>
          let fwdm1 := bd.fwdm.insert wr.key oldval
          let invm1 := bd.invm.insert oldval wr.key
          ⟨fwdm1, if dr.isdupval then invm1 else invm1.erase wr.val⟩
        | none => bd
      else bd
    if dr.isdupval then
      match wr.oldkey with
      | some oldkey =>
        let invm2 := s1.invm.insert wr.val oldkey
        let fwdm2 := s1.fwdm.insert oldkey wr.val
        ⟨if dr.isdupkey then fwdm2 else fwdm2.erase wr.key, invm2⟩
      | none => s1
    else s1

/-- `BidictBase._update_no_dup_check`: write every pair of the source across
with the `_NODUP` result, without dedup checking. -/
def update_no_dup_check (bd : Bidict K V) (items : List (K × V)) : Bidict K V :=
  items.foldl (fun b kv => (write_item b kv.1 kv.2 NODUP).1) bd

/-- `BidictBase._update_no_rollback` as written: `_put` each item in
sequence.  An exception propagates immediately; the state it leaves behind
(no rollback) rides along in the error.  As written the first item's
`_dedup_item` raises `NameError`, so nothing is ever applied. -/
def update_no_rollback_asWritten (bd : Bidict K V) (on_dup : OnDup)
    (items : List (K × V)) :
    Except (PyError K V × Bidict K V) (Bidict K V) :=
  match items with
  | [] => .ok bd
  | (key, val) :: rest =>
    match put_asWritten bd key val on_dup with
    | .error e => .error (e, bd)
    | .ok bd2 => update_no_rollback_asWritten bd2 on_dup rest

/-- `reversed(writelog)` replayed through `_undo_write` (the rollback loop of
`_update_with_rollback`); the log is kept oldest-first, as appended. -/
def rollback (bd : Bidict K V) (log : List (DedupResult K V × WriteResult K V)) :
    Bidict K V :=
  log.reverse.foldl (fun b p => undo_write b p.1 p.2) bd

/-- The item loop of `BidictBase._update_with_rollback` as written, carrying
the write log.  Only a raised `DuplicationError` is caught (`except
DuplicationError`), replaying the log in reverse before re-raising; any other
exception — in particular the `NameError` from `_dedup_item` — propagates
uncaught, with no rollback, leaving the state as it was at the moment of the
raise. -/
def update_with_rollback_asWritten_go (on_dup : OnDup) (items : List (K × V))
    (bd : Bidict K V) (log : List (DedupResult K V × WriteResult K V)) :
    Except (PyError K V × Bidict K V) (Bidict K V) :=
  match items with
  | [] => .ok bd
  | (key, val) :: rest =>
    match dedup_item_asWritten bd key val on_dup with
    | .error (.dup e) => .error (.dup e, rollback bd log)
    | .error e => .error (e, bd)
    | .ok none => update_with_rollback_asWritten_go on_dup rest bd log
    | .ok (some dr) =>
      let r := write_item bd key val dr
      update_with_rollback_asWritten_go on_dup rest r.1 (log ++ [(dr, r.2)])

/-- `BidictBase._update_with_rollback` as written. -/
def update_with_rollback_asWritten (bd : Bidict K V) (on_dup : OnDup)
    (items : List (K × V)) :
    Except (PyError K V × Bidict K V) (Bidict K V) :=
  update_with_rollback_asWritten_go on_dup items bd []

/-- `BidictBase._update` as written: the dispatcher.  `init` is the first
argument of `_update`; `srcIsBidict` states that the input was a single
positional `BidirectionalMapping` source (and no keyword items), whose items
in order are `items`; `not self` is `fwdm = ∅`.  Only the no-dup-check fast
path can complete on a non-empty batch; both checked paths hit the
`_dedup_item` `NameError` on their first item. -/
def update_asWritten (bd : Bidict K V) (init srcIsBidict : Bool) (on_dup : OnDup)
    (items : List (K × V)) :
    Except (PyError K V × Bidict K V) (Bidict K V) :=
  if items = [] then .ok bd
  else if bd.fwdm = ∅ ∧ srcIsBidict = true then .ok (update_no_dup_check bd items)
  else if init = true ∨ OnDup.contains on_dup .RAISE = false then
    update_no_rollback_asWritten bd on_dup items
  else update_with_rollback_asWritten bd on_dup items

/-- `BidictBase.__init__` with items, as written: start from the empty state
and run `_update(True, on_dup, ...)`.  Only an `.ok` result yields a usable
instance (a construction error leaves the partially built object
inaccessible). -/
def fromItems_asWritten (srcIsBidict : Bool) (on_dup : OnDup)
    (items : List (K × V)) :
    Except (PyError K V × Bidict K V) (Bidict K V) :=
  update_asWritten (empty : Bidict K V) true srcIsBidict on_dup items

/-- `BidictBase.copy` at the level of contents: the copy has equal backing
stores.  (Storage freshness/independence is modelled separately by the heap
model below.) -/
def copy (bd : Bidict K V) : Bidict K V := ⟨bd.fwdm, bd.invm⟩

/-- The inverse view's observable state: `_fwdm` and `_invm` swapped
(`inv._fwdm = self._invm`, `inv._invm = self._fwdm` in `_init_inv`). -/
def inverse (bd : Bidict K V) : Bidict V K := ⟨bd.invm, bd.fwdm⟩

/-- `BidictBase.__eq__`: equal lengths, and every item of `other` is found by
forward lookup in `self`. -/
def beq (a other : Bidict K V) : Prop :=
  size a = size other ∧
    ∀ k v, other.fwdm.lookup k = some v → a.fwdm.lookup k = some v

/-- The bijection invariant of a bidict state: forward and inverse store
agree, as the graph of one bijection read in both directions. -/
def Good (bd : Bidict K V) : Prop :=
  ∀ k v, bd.fwdm.lookup k = some v ↔ bd.invm.lookup v = some k

/-- The plain two-sided write `fwdm[key] = val; invm[val] = key`; this is
`write_item` with the `_NODUP` result, with no stale entries to delete. -/
def insertPair (bd : Bidict K V) (key : K) (val : V) : Bidict K V :=
  ⟨bd.fwdm.insert key val, bd.invm.insert val key⟩

/-- The two-sided delete performed by `_pop`. -/
def erasePair (bd : Bidict K V) (key : K) (val : V) : Bidict K V :=
  ⟨bd.fwdm.erase key, bd.invm.erase val⟩


/-! ## States reachable through the public API

A constructor per public operation: construction (only a successful
construction yields a usable object), `_put`-based single-item mutation,
`_update`-based batch mutation (both its success state and the state left
when it raises), `_pop`-based removal, `copy`, and the same mutations
performed through the inverse view.  For the operations whose fast path
trusts a `BidirectionalMapping` source, the hypothesis records the
no-internal-duplicates guarantee that `isinstance` check provides. -/

inductive Reachable : Bidict K V → Prop where
  | empty_init : Reachable empty
  | construct {sb : Bool} {od : OnDup} {items : List (K × V)} {bd : Bidict K V} :
      (sb = true → (items.map Prod.fst).Nodup ∧ (items.map Prod.snd).Nodup) →
      fromItems_asWritten sb od items = .ok bd → Reachable bd
  | put_step {bd bd2 : Bidict K V} {k : K} {v : V} {od : OnDup} :
      Reachable bd → put_asWritten bd k v od = .ok bd2 → Reachable bd2
  | update_ok_step {bd bd2 : Bidict K V} {sb : Bool} {od : OnDup}
      {items : List (K × V)} :
      Reachable bd →
      (sb = true → (items.map Prod.fst).Nodup ∧ (items.map Prod.snd).Nodup) →
      update_asWritten bd false sb od items = .ok bd2 → Reachable bd2
  | update_err_step {bd bd2 : Bidict K V} {sb : Bool} {od : OnDup}
      {items : List (K × V)} {e : PyError K V} :
      Reachable bd →
      update_asWritten bd false sb od items = .error (e, bd2) → Reachable bd2
  | pop_step {bd bd2 : Bidict K V} {k : K} {v : V} :
      Reachable bd → pop bd k = .ok (bd2, v) → Reachable bd2
  | copy_step {bd : Bidict K V} : Reachable bd → Reachable bd.copy
  | inv_put_step {bd : Bidict K V} {c : Bidict V K} {v : V} {k : K} {od : OnDup} :
      Reachable bd → put_asWritten bd.inverse v k od = .ok c → Reachable c.inverse
  | inv_pop_step {bd : Bidict K V} {c : Bidict V K} {v : V} {k : K} :
      Reachable bd → pop bd.inverse v = .ok (c, k) → Reachable c.inverse
  | inv_update_ok_step {bd : Bidict K V} {c : Bidict V K} {sb : Bool} {od : OnDup}
      {items : List (V × K)} :
      Reachable bd →
      (sb = true → (items.map Prod.fst).Nodup ∧ (items.map Prod.snd).Nodup) →
      update_asWritten bd.inverse false sb od items = .ok c → Reachable c.inverse
  | inv_update_err_step {bd : Bidict K V} {c : Bidict V K} {sb : Bool} {od : OnDup}
      {items : List (V × K)} {e : PyError V K} :
      Reachable bd →
      update_asWritten bd.inverse false sb od items = .error (e, c) →
      Reachable c.inverse


end Bidict

/-! ## Object identity: the inverse pairing and `copy`

`_init_inv` wires two instances to the *same* two backing stores, crossed;
`copy` allocates fresh stores.  To make storage identity and sharing
observable, we model the stores in two pools (key→value stores and
value→key stores) and an instance as a pair of indices into them. -/

/-- The two pools of live backing stores. -/
structure Heap (K V : Type) : Type where
  fstores : List (Finmap fun _ : K => V)
  gstores : List (Finmap fun _ : V => K)

/-- A live forward-oriented instance: `_fwdm` lives at `fstores[fwd]`,
`_invm` at `gstores[inv]`. -/
structure ObjF : Type where
  fwd : Nat
  inv : Nat
deriving DecidableEq

/-- A live inverse-oriented instance: `_fwdm` lives at `gstores[fwd]`,
`_invm` at `fstores[inv]`. -/
structure ObjR : Type where
  fwd : Nat
  inv : Nat
deriving DecidableEq

namespace Heap

variable {K V : Type} [DecidableEq K] [DecidableEq V]

def getF (h : Heap K V) (i : Nat) : Finmap fun _ : K => V := h.fstores.getD i ∅

def getG (h : Heap K V) (i : Nat) : Finmap fun _ : V => K := h.gstores.getD i ∅

def setF (h : Heap K V) (i : Nat) (m : Finmap fun _ : K => V) : Heap K V :=
  ⟨h.fstores.set i m, h.gstores⟩

def setG (h : Heap K V) (i : Nat) (m : Finmap fun _ : V => K) : Heap K V :=
  ⟨h.fstores, h.gstores.set i m⟩

end Heap

/-- The indices of an object are live in the heap. -/
def ObjF.valid {K V : Type} (h : Heap K V) (o : ObjF) : Prop :=
  o.fwd < h.fstores.length ∧ o.inv < h.gstores.length

/-- `_init_inv` / the `inverse` property while the strong holder is alive:
return the paired instance, whose `_fwdm` is this instance's `_invm` and
vice versa.  No store is allocated or copied. -/
def inverseViewF (o : ObjF) : ObjR := ⟨o.inv, o.fwd⟩

/-- `inverse` on the inverse-oriented instance (resolved through the weak
back-reference while the referent is alive). -/
def inverseViewR (o : ObjR) : ObjF := ⟨o.inv, o.fwd⟩

/-- The observable contents of a forward-oriented object. -/
def ObjF.state {K V : Type} [DecidableEq K] [DecidableEq V]
    (h : Heap K V) (o : ObjF) : Bidict K V := ⟨h.getF o.fwd, h.getG o.inv⟩

/-- The observable contents of an inverse-oriented object. -/
def ObjR.state {K V : Type} [DecidableEq K] [DecidableEq V]
    (h : Heap K V) (o : ObjR) : Bidict V K := ⟨h.getG o.fwd, h.getF o.inv⟩

/-- `_write_item` performed through a forward-oriented object: both backing
stores are mutated in place. -/
def writeItemF {K V : Type} [DecidableEq K] [DecidableEq V] (h : Heap K V)
    (o : ObjF) (k : K) (v : V) (dr : DedupResult K V) : Heap K V :=
  let bd2 := (Bidict.write_item (ObjF.state h o) k v dr).1
  (h.setF o.fwd bd2.fwdm).setG o.inv bd2.invm

/-- `_write_item` performed through an inverse-oriented object. -/
def writeItemR {K V : Type} [DecidableEq K] [DecidableEq V] (h : Heap K V)
    (o : ObjR) (v : V) (k : K) (dr : DedupResult V K) : Heap K V :=
  let bd2 := (Bidict.write_item (ObjR.state h o) v k dr).1
  (h.setG o.fwd bd2.fwdm).setF o.inv bd2.invm

/-- `BidictBase.copy`: allocate fresh stores holding whole copies of the two
backing mappings (`_fwdm.copy()`, `_invm.copy()`) and wire a new instance
(and, via `_init_inv`, its own inverse pair) to them. -/
def copyF {K V : Type} [DecidableEq K] [DecidableEq V] (h : Heap K V)
    (o : ObjF) : Heap K V × ObjF :=
  (⟨h.fstores ++ [h.getF o.fwd], h.gstores ++ [h.getG o.inv]⟩,
    ⟨h.fstores.length, h.gstores.length⟩)

/-- Accessing the `inverse` property of a forward-oriented instance while the
pair is alive: the stored paired object is returned and the heap is
untouched (lines 211–216 of `_base.py` — no `_init_inv` call happens). -/
def inverseAccessF {K V : Type} (h : Heap K V) (o : ObjF) : Heap K V × ObjR :=
  (h, inverseViewF o)

/-- Accessing the `inverse` property of an inverse-oriented instance while
its referent is alive: the weak back-reference resolves, the heap is
untouched. -/
def inverseAccessR {K V : Type} (h : Heap K V) (o : ObjR) : Heap K V × ObjF :=
  (h, inverseViewR o)

/-! ## Concrete states used to evaluate the model -/

/-- The two-item map `{1: "a", 2: "b"}` of the spec's examples. -/
def exmap2 : Bidict ℕ String :=
  Bidict.insertPair (Bidict.insertPair Bidict.empty 1 "a") 2 "b"

/-- A small numeric map `{1: 10, 2: 20}`. -/
def exmapN : Bidict ℕ ℕ :=
  Bidict.insertPair (Bidict.insertPair Bidict.empty 1 10) 2 20

/-! ## Store lemmas

Facts about `Finmap` insert/erase used throughout: how the Python dict
mutations `d[k] = v` / `del d[k]` compose. -/

section StoreLemmas

variable {α : Type} {β : α → Type} [DecidableEq α]

theorem fm_insert_erase (a : α) (b : β a) (s : Finmap β) :
    (s.erase a).insert a b = s.insert a b := by
  apply Finmap.ext_lookup
  intro x
  by_cases hx : x = a
  · subst hx; simp
  · simp [Finmap.lookup_insert_of_ne _ hx, Finmap.lookup_erase_ne hx]

theorem fm_insert_self {a : α} {b : β a} {s : Finmap β} (h : s.lookup a = some b) :
    s.insert a b = s := by
  apply Finmap.ext_lookup
  intro x
  by_cases hx : x = a
  · subst hx; simp [h]
  · simp [Finmap.lookup_insert_of_ne _ hx]

theorem fm_erase_insert_of_ne {a c : α} (b : β a) (s : Finmap β) (h : a ≠ c) :
    (s.insert a b).erase c = (s.erase c).insert a b := by
  apply Finmap.ext_lookup
  intro x
  by_cases hxc : x = c
  · subst hxc
    simp [Finmap.lookup_insert_of_ne _ (Ne.symm h)]
  · by_cases hxa : x = a
    · subst hxa
      simp [Finmap.lookup_erase_ne hxc]
    · simp [Finmap.lookup_erase_ne hxc, Finmap.lookup_insert_of_ne _ hxa]

theorem fm_erase_insert_self {a : α} {b : β a} {s : Finmap β} (h : s.lookup a = none) :
    (s.insert a b).erase a = s := by
  apply Finmap.ext_lookup
  intro x
  by_cases hx : x = a
  · subst hx; simp [h]
  · simp [Finmap.lookup_erase_ne hx, Finmap.lookup_insert_of_ne _ hx]

end StoreLemmas

namespace Bidict

variable {K V : Type} [DecidableEq K] [DecidableEq V]

/-! ## The bijection invariant -/

theorem good_empty : Good (empty : Bidict K V) := by
  intro k v
  simp [empty, Finmap.lookup_empty]

/-- `Good` is symmetric in the two stores: the invariant of the inverse view
is the same property. -/
theorem good_inverse {bd : Bidict K V} : Good bd.inverse ↔ Good bd := by
  constructor
  · intro h k v
    exact (h v k).symm
  · intro h v k
    exact (h k v).symm

/-- Under the invariant the two stores have the same number of entries:
`len(self._fwdm) = len(self._invm)`. -/
theorem good_size_eq {bd : Bidict K V} (hg : Good bd) :
    bd.fwdm.keys.card = bd.invm.keys.card := by
  apply Finset.card_bij
    (fun k hk => (bd.fwdm.lookup k).get (Finmap.lookup_isSome.mpr (Finmap.mem_keys.mp hk)))
  · intro a ha
    have h1 : bd.fwdm.lookup a =
        some ((bd.fwdm.lookup a).get (Finmap.lookup_isSome.mpr (Finmap.mem_keys.mp ha))) :=
      (Option.some_get _).symm
    exact Finmap.mem_keys.mpr (Finmap.mem_of_lookup_eq_some ((hg a _).mp h1))
  · intro a1 h1 a2 h2 heq
    have e1 : bd.fwdm.lookup a1 =
        some ((bd.fwdm.lookup a1).get (Finmap.lookup_isSome.mpr (Finmap.mem_keys.mp h1))) :=
      (Option.some_get _).symm
    have e2 : bd.fwdm.lookup a2 =
        some ((bd.fwdm.lookup a2).get (Finmap.lookup_isSome.mpr (Finmap.mem_keys.mp h2))) :=
      (Option.some_get _).symm
    have i1 := (hg a1 _).mp e1
    have i2 := (hg a2 _).mp e2
    rw [heq] at i1
    rw [i1] at i2
    exact Option.some_inj.mp i2
  · intro b hb
    obtain ⟨a, ha⟩ := Finmap.mem_iff.mp (Finmap.mem_keys.mp hb)
    have hf : bd.fwdm.lookup a = some b := (hg a b).mpr ha
    refine ⟨a, Finmap.mem_keys.mpr (Finmap.mem_of_lookup_eq_some hf), ?_⟩
    simp [hf]

/-- The agreement the `assert` in `_already_have` checks: under the invariant,
the existing key for `val` equals `key` exactly when the existing value for
`key` equals `val`. -/
theorem good_already_have_agrees {bd : Bidict K V} (hg : Good bd)
    {key oldkey : K} {val oldval : V}
    (hk : bd.fwdm.lookup key = some oldval) (hv : bd.invm.lookup val = some oldkey) :
    oldkey = key ↔ oldval = val := by
  constructor
  · intro h
    subst h
    have := (hg oldkey val).mpr hv
    rw [hk] at this
    exact Option.some_inj.mp this.symm |>.symm
  · intro h
    subst h
    have := (hg key oldval).mp hk
    rw [hv] at this
    exact Option.some_inj.mp this

/-! ## Characterizing the write primitive -/

theorem write_item_nodup (bd : Bidict K V) (key : K) (val : V) :
    (write_item bd key val NODUP).1 = insertPair bd key val := rfl

theorem good_insertPair {bd : Bidict K V} (hg : Good bd) {key : K} {val : V}
    (hk : bd.fwdm.lookup key = none) (hv : bd.invm.lookup val = none) :
    Good (insertPair bd key val) := by
  intro x y
  show (bd.fwdm.insert key val).lookup x = some y ↔ (bd.invm.insert val key).lookup y = some x
  by_cases hx : x = key
  · subst hx
    by_cases hy : y = val
    · subst hy; simp
    · rw [Finmap.lookup_insert, Finmap.lookup_insert_of_ne _ hy]
      constructor
      · intro h
        exact absurd (Option.some_inj.mp h).symm hy
      · intro h
        have := (hg x y).mpr h
        rw [hk] at this
        exact Option.noConfusion this
  · by_cases hy : y = val
    · subst hy
      rw [Finmap.lookup_insert_of_ne _ hx, Finmap.lookup_insert]
      constructor
      · intro h
        have := (hg x y).mp h
        rw [hv] at this
        exact Option.noConfusion this
      · intro h
        exact absurd (Option.some_inj.mp h).symm hx
    · rw [Finmap.lookup_insert_of_ne _ hx, Finmap.lookup_insert_of_ne _ hy]
      exact hg x y

theorem good_erasePair {bd : Bidict K V} (hg : Good bd) {k : K} {v : V}
    (h : bd.fwdm.lookup k = some v) : Good (erasePair bd k v) := by
  have hv : bd.invm.lookup v = some k := (hg k v).mp h
  intro x y
  show (bd.fwdm.erase k).lookup x = some y ↔ (bd.invm.erase v).lookup y = some x
  by_cases hx : x = k
  · subst hx
    rw [Finmap.lookup_erase]
    by_cases hy : y = v
    · subst hy; rw [Finmap.lookup_erase]; simp
    · rw [Finmap.lookup_erase_ne hy]
      constructor
      · intro hh
        exact Option.noConfusion hh
      · intro hh
        have := (hg x y).mpr hh
        rw [h] at this
        exact absurd (Option.some_inj.mp this).symm hy
  · by_cases hy : y = v
    · subst hy
      rw [Finmap.lookup_erase, Finmap.lookup_erase_ne hx]
      constructor
      · intro hh
        have := (hg x y).mp hh
        rw [hv] at this
        exact absurd (Option.some_inj.mp this).symm hx
      · intro hh
        exact Option.noConfusion hh
    · rw [Finmap.lookup_erase_ne hx, Finmap.lookup_erase_ne hy]
      exact hg x y

/-- Good is preserved by `_pop`. -/
theorem good_pop {bd bd2 : Bidict K V} {k : K} {v : V}
    (hg : Good bd) (h : pop bd k = .ok (bd2, v)) : Good bd2 := by
  unfold pop at h
  rcases hk : bd.fwdm.lookup k with _ | v0 <;> rw [hk] at h
  · exact Except.noConfusion h
  · have := Except.ok.inj h
    have hbd : bd2 = ⟨bd.fwdm.erase k, bd.invm.erase v0⟩ := by
      rw [← (Prod.mk.injEq _ _ _ _).mp this.symm |>.1]
    rw [hbd]
    exact good_erasePair hg hk

/-! ## Duplication-free batches: the three insertion paths agree -/

theorem update_no_dup_check_nil (bd : Bidict K V) :
    update_no_dup_check bd [] = bd := rfl

theorem update_no_dup_check_cons (bd : Bidict K V) (k : K) (v : V)
    (rest : List (K × V)) :
    update_no_dup_check bd ((k, v) :: rest) =
      update_no_dup_check (insertPair bd k v) rest := rfl

theorem fresh_tail_fwd {bd : Bidict K V} {k : K} {v : V} {rest : List (K × V)}
    (hfk : ∀ p ∈ (k, v) :: rest, bd.fwdm.lookup p.1 = none)
    (hndk : (((k, v) :: rest).map Prod.fst).Nodup) :
    ∀ p ∈ rest, (insertPair bd k v).fwdm.lookup p.1 = none := by
  intro p hp
  have hknotin : k ∉ rest.map Prod.fst := (List.nodup_cons.mp hndk).1
  have hne : p.1 ≠ k := by
    intro he
    exact hknotin (he ▸ List.mem_map_of_mem Prod.fst hp)
  show (bd.fwdm.insert k v).lookup p.1 = none
  rw [Finmap.lookup_insert_of_ne _ hne]
  exact hfk p (List.mem_cons_of_mem _ hp)

theorem fresh_tail_inv {bd : Bidict K V} {k : K} {v : V} {rest : List (K × V)}
    (hfv : ∀ p ∈ (k, v) :: rest, bd.invm.lookup p.2 = none)
    (hndv : (((k, v) :: rest).map Prod.snd).Nodup) :
    ∀ p ∈ rest, (insertPair bd k v).invm.lookup p.2 = none := by
  intro p hp
  have hvnotin : v ∉ rest.map Prod.snd := (List.nodup_cons.mp hndv).1
  have hne : p.2 ≠ v := by
    intro he
    exact hvnotin (he ▸ List.mem_map_of_mem Prod.snd hp)
  show (bd.invm.insert v k).lookup p.2 = none
  rw [Finmap.lookup_insert_of_ne _ hne]
  exact hfv p (List.mem_cons_of_mem _ hp)

/-- Writing a batch of pairwise-fresh items with `_NODUP` preserves the
invariant. -/
theorem good_update_no_dup_check :
    ∀ (items : List (K × V)) (bd : Bidict K V), Good bd →
      (∀ p ∈ items, bd.fwdm.lookup p.1 = none) →
      (∀ p ∈ items, bd.invm.lookup p.2 = none) →
      (items.map Prod.fst).Nodup → (items.map Prod.snd).Nodup →
      Good (update_no_dup_check bd items) := by
  intro items
  induction items with
  | nil => intro bd hg _ _ _ _; exact hg
  | cons kv rest ih =>
    intro bd hg hfk hfv hndk hndv
    obtain ⟨k, v⟩ := kv
    rw [update_no_dup_check_cons]
    have hk0 : bd.fwdm.lookup k = none := hfk (k, v) (List.mem_cons_self _ _)
    have hv0 : bd.invm.lookup v = none := hfv (k, v) (List.mem_cons_self _ _)
    exact ih (insertPair bd k v) (good_insertPair hg hk0 hv0)
      (fresh_tail_fwd hfk hndk) (fresh_tail_inv hfv hndv)
      (List.nodup_cons.mp hndk).2 (List.nodup_cons.mp hndv).2

/-! ## The `_update` dispatcher -/

/-- On an empty forward store the whole state is empty, by the invariant. -/
theorem good_fwdm_empty_invm_empty {bd : Bidict K V} (hg : Good bd)
    (he : bd.fwdm = ∅) : bd = empty := by
  have hi : bd.invm = ∅ := by
    apply Finmap.ext_lookup
    intro x
    rw [Finmap.lookup_empty]
    rcases hl : bd.invm.lookup x with _ | k0
    · rfl
    · have := (hg k0 x).mpr hl
      rw [he, Finmap.lookup_empty] at this
      exact Option.noConfusion this
  show bd = ⟨∅, ∅⟩
  rw [← he, ← hi]

/-! ## `__eq__` -/

/-- The one-directional item check of `__eq__` plus the length check already
pin the maps down in both directions. -/
theorem beq_iff {a b : Bidict K V} :
    beq a b ↔
      (size a = size b ∧
        (∀ k v, b.fwdm.lookup k = some v → a.fwdm.lookup k = some v) ∧
        (∀ k v, a.fwdm.lookup k = some v → b.fwdm.lookup k = some v)) := by
  constructor
  · rintro ⟨hsz, hba⟩
    refine ⟨hsz, hba, ?_⟩
    have hsub : b.fwdm.keys ⊆ a.fwdm.keys := by
      intro k hk
      obtain ⟨v, hv⟩ := Finmap.mem_iff.mp (Finmap.mem_keys.mp hk)
      exact Finmap.mem_keys.mpr (Finmap.mem_of_lookup_eq_some (hba k v hv))
    have hkeys : b.fwdm.keys = a.fwdm.keys :=
      Finset.eq_of_subset_of_card_le hsub (le_of_eq hsz)
    intro k v hv
    have hk : k ∈ b.fwdm.keys := by
      rw [hkeys]
      exact Finmap.mem_keys.mpr (Finmap.mem_of_lookup_eq_some hv)
    obtain ⟨v2, hv2⟩ := Finmap.mem_iff.mp (Finmap.mem_keys.mp hk)
    have := hba k v2 hv2
    rw [hv] at this
    rw [Option.some_inj.mp this]
    exact hv2
  · rintro ⟨hsz, hba, _⟩
    exact ⟨hsz, hba⟩

/-! ## As-written behaviour of the mutation paths

`_dedup_item` evaluates the unbound name `_Marker` on every call, so each
path that reaches it raises `NameError` at its first item; only the empty
batch and the no-dup-check fast path are unaffected. -/

theorem dedup_item_asWritten_crash (bd : Bidict K V) (k : K) (v : V) (od : OnDup) :
    dedup_item_asWritten bd k v od = .error (.NameError "_Marker") := rfl

theorem put_asWritten_crash (bd : Bidict K V) (k : K) (v : V) (od : OnDup) :
    put_asWritten bd k v od = .error (.NameError "_Marker") := rfl

theorem update_no_rollback_asWritten_cons (bd : Bidict K V) (od : OnDup)
    (k : K) (v : V) (rest : List (K × V)) :
    update_no_rollback_asWritten bd od ((k, v) :: rest) =
      .error (.NameError "_Marker", bd) := rfl

theorem update_with_rollback_asWritten_cons (bd : Bidict K V) (od : OnDup)
    (k : K) (v : V) (rest : List (K × V)) :
    update_with_rollback_asWritten bd od ((k, v) :: rest) =
      .error (.NameError "_Marker", bd) := rfl

theorem update_asWritten_nil (bd : Bidict K V) (init sb : Bool) (od : OnDup) :
    update_asWritten bd init sb od [] = .ok bd := by
  unfold update_asWritten
  rw [if_pos rfl]

/-- The no-dup-check fast path: with an empty self and a trusted
`BidirectionalMapping` source, the whole batch is applied without ever
calling `_dedup_item`. -/
theorem update_asWritten_fast_path {bd : Bidict K V} {items : List (K × V)}
    (init : Bool) (od : OnDup) (h0 : items ≠ []) (he : bd.fwdm = ∅) :
    update_asWritten bd init true od items = .ok (update_no_dup_check bd items) := by
  unfold update_asWritten
  rw [if_neg h0, if_pos ⟨he, rfl⟩]

/-- Every nonempty update off the fast path raises the `NameError` on its
very first item, leaving the state exactly as it was at entry. -/
theorem update_asWritten_checked_crash {bd : Bidict K V} {init sb : Bool}
    {od : OnDup} {k : K} {v : V} {rest : List (K × V)}
    (h1 : ¬(bd.fwdm = ∅ ∧ sb = true)) :
    update_asWritten bd init sb od ((k, v) :: rest) =
      .error (.NameError "_Marker", bd) := by
  unfold update_asWritten
  rw [if_neg (by simp), if_neg h1]
  by_cases h2 : init = true ∨ OnDup.contains od .RAISE = false
  · rw [if_pos h2]
    exact update_no_rollback_asWritten_cons bd od k v rest
  · rw [if_neg h2]
    exact update_with_rollback_asWritten_cons bd od k v rest

/-- A successful as-written update is the empty batch or the fast path. -/
theorem update_asWritten_ok {bd bd2 : Bidict K V} {init sb : Bool} {od : OnDup}
    {items : List (K × V)}
    (h : update_asWritten bd init sb od items = .ok bd2) :
    bd2 = bd ∨ (bd.fwdm = ∅ ∧ sb = true ∧ bd2 = update_no_dup_check bd items) := by
  by_cases h0 : items = []
  · subst h0
    rw [update_asWritten_nil] at h
    exact Or.inl (Except.ok.inj h).symm
  · obtain ⟨p, rest, hx⟩ := List.exists_cons_of_ne_nil h0
    obtain ⟨k, v⟩ := p
    subst hx
    by_cases h1 : bd.fwdm = ∅ ∧ sb = true
    · rw [h1.2, update_asWritten_fast_path init od (by simp) h1.1] at h
      exact Or.inr ⟨h1.1, h1.2, (Except.ok.inj h).symm⟩
    · rw [update_asWritten_checked_crash h1] at h
      exact Except.noConfusion h

/-- A failed as-written update leaves the state unchanged and its error is
the `NameError` — never a caught-and-rolled-back duplication error. -/
theorem update_asWritten_err {bd bd2 : Bidict K V} {init sb : Bool} {od : OnDup}
    {items : List (K × V)} {e : PyError K V}
    (h : update_asWritten bd init sb od items = .error (e, bd2)) :
    bd2 = bd ∧ e = PyError.NameError "_Marker" := by
  by_cases h0 : items = []
  · subst h0
    rw [update_asWritten_nil] at h
    exact Except.noConfusion h
  · obtain ⟨p, rest, hx⟩ := List.exists_cons_of_ne_nil h0
    obtain ⟨k, v⟩ := p
    subst hx
    by_cases h1 : bd.fwdm = ∅ ∧ sb = true
    · rw [h1.2, update_asWritten_fast_path init od (by simp) h1.1] at h
      exact Except.noConfusion h
    · rw [update_asWritten_checked_crash h1] at h
      have h2 := Except.error.inj h
      exact ⟨(Prod.ext_iff.mp h2).2.symm, (Prod.ext_iff.mp h2).1.symm⟩

/-- Good is preserved by every successful as-written `_update`, provided
that when the no-dup-check fast path is enabled the items really do come
from a `BidirectionalMapping` (so they contain no internal duplicates — the
guarantee the `isinstance` test provides in the source). -/
theorem good_update_asWritten_ok {bd bd2 : Bidict K V} {init sb : Bool}
    {od : OnDup} {items : List (K × V)} (hg : Good bd)
    (hsrc : sb = true → (items.map Prod.fst).Nodup ∧ (items.map Prod.snd).Nodup)
    (h : update_asWritten bd init sb od items = .ok bd2) : Good bd2 := by
  rcases update_asWritten_ok h with he | ⟨hfe, hsb, he⟩
  · rw [he]
    exact hg
  · obtain ⟨hnk, hnv⟩ := hsrc hsb
    have hbd : bd = empty := good_fwdm_empty_invm_empty hg hfe
    rw [he, hbd]
    exact good_update_no_dup_check items _ good_empty
      (fun p _ => Finmap.lookup_empty _) (fun p _ => Finmap.lookup_empty _) hnk hnv

/-- Good also holds for the state an as-written `_update` leaves behind on
failure: the `NameError` fires before anything is written. -/
theorem good_update_asWritten_err {bd bd2 : Bidict K V} {init sb : Bool}
    {od : OnDup} {items : List (K × V)} {e : PyError K V} (hg : Good bd)
    (h : update_asWritten bd init sb od items = .error (e, bd2)) : Good bd2 := by
  rw [(update_asWritten_err h).1]
  exact hg

/-- Every reachable state satisfies the bijection invariant. -/
theorem reachable_good {bd : Bidict K V} (h : Reachable bd) : Good bd := by
  induction h with
  | empty_init => exact good_empty
  | construct hsrc h => exact good_update_asWritten_ok good_empty hsrc h
  | put_step _ h ih =>
    rw [put_asWritten_crash] at h
    exact Except.noConfusion h
  | update_ok_step _ hsrc h ih => exact good_update_asWritten_ok ih hsrc h
  | update_err_step _ h ih => exact good_update_asWritten_err ih h
  | pop_step _ h ih => exact good_pop ih h
  | copy_step _ ih => exact ih
  | inv_put_step _ h ih =>
    rw [put_asWritten_crash] at h
    exact Except.noConfusion h
  | inv_pop_step _ h ih => exact good_inverse.mpr (good_pop (good_inverse.mpr ih) h)
  | inv_update_ok_step _ hsrc h ih =>
    exact good_inverse.mpr (good_update_asWritten_ok (good_inverse.mpr ih) hsrc h)
  | inv_update_err_step _ h ih =>
    exact good_inverse.mpr (good_update_asWritten_err (good_inverse.mpr ih) h)

/-! ## Invariant of the concrete example states -/

theorem exmap2_good : Good exmap2 :=
  good_insertPair (good_insertPair good_empty (by decide) (by decide))
    (by decide) (by decide)

theorem exmapN_good : Good exmapN :=
  good_insertPair (good_insertPair good_empty (by decide) (by decide))
    (by decide) (by decide)

/-! ## The claims -/

/-- C1: the claim says each duplication scenario of `put(key, value,
policy)` is governed by its own policy slot, with `KeyDuplication`,
`ValueDuplication` and `KeyAndValueDuplication` raised as distinct errors and
plain insertion when nothing is duplicated.  The code as written does none of
this: `_dedup_item` evaluates the unbound name `_Marker` (`_base.py:322`)
before reaching any policy slot, so every `_put` — duplicate or not — raises
`NameError`, never any `DuplicationError`, and never inserts.  Shown here:
`_put` always returns the `NameError`; on the concrete `{1: "a", 2: "b"}` a
key-only duplicate `put(1, "c")` under all-RAISE yields no `DuplicationError`
of any kind; and a fresh pair `put(3, "c")` is not inserted. -/
theorem C1_put_always_name_error {K V : Type} [DecidableEq K] [DecidableEq V] :
    (∀ (bd : Bidict K V) (k : K) (v : V) (od : OnDup),
      put_asWritten bd k v od = .error (.NameError "_Marker")) ∧
    (∀ e : DuplicationError ℕ String,
      put_asWritten exmap2 1 "c" ON_DUP_RAISE ≠ .error (.dup e)) ∧
    put_asWritten exmap2 3 "c" ON_DUP_RAISE ≠ .ok (insertPair exmap2 3 "c") := by
  refine ⟨fun bd k v od => rfl, ?_, ?_⟩
  · intro e h
    rw [put_asWritten_crash] at h
    exact PyError.noConfusion (Except.error.inj h)
  · intro h
    rw [put_asWritten_crash] at h
    exact Except.noConfusion h

/-- C2: the claim says a batch whose policy contains RAISE is atomic: a
duplication error mid-batch rolls back every applied write.  As written the
rollback machinery never runs: the first item's `_dedup_item` raises
`NameError`, which `except DuplicationError` does not catch, so
`_update_with_rollback` propagates the `NameError` with the state as of the
raise.  Shown here: every nonempty with-rollback batch errors with the
`NameError` immediately; on the spec's own example (`{1: "a", 2: "b"}`,
all-RAISE, batch `[(3, "c"), (1, "z")]`) the result is the `NameError`, and
no `KeyDuplication`-style error is ever produced, against any end state. -/
theorem C2_rollback_never_runs {K V : Type} [DecidableEq K] [DecidableEq V] :
    (∀ (bd : Bidict K V) (od : OnDup) (k : K) (v : V) (rest : List (K × V)),
      update_with_rollback_asWritten bd od ((k, v) :: rest) =
        .error (.NameError "_Marker", bd)) ∧
    update_with_rollback_asWritten exmap2 ON_DUP_RAISE [(3, "c"), (1, "z")] =
      .error (.NameError "_Marker", exmap2) ∧
    (∀ (e : DuplicationError ℕ String) (bd2 : Bidict ℕ String),
      update_with_rollback_asWritten exmap2 ON_DUP_RAISE [(3, "c"), (1, "z")] ≠
        .error (.dup e, bd2)) := by
  refine ⟨fun bd od k v rest => update_with_rollback_asWritten_cons bd od k v rest,
    update_with_rollback_asWritten_cons exmap2 ON_DUP_RAISE 3 "c" [(1, "z")], ?_⟩
  intro e bd2 h
  rw [update_with_rollback_asWritten_cons] at h
  exact PyError.noConfusion (Prod.ext_iff.mp (Except.error.inj h)).1

/-- C3: every state reachable through the public API — construction,
`_put`-based mutation, `_update` (successful or not, through the front or
the inverse view), `_pop`, `copy` — has forward and inverse stores of equal
size, with the two lookup directions inverse to each other.  This holds of
the code as written: the only operations that can complete are the
duplicate-free ones (empty batches, the no-dup-check fast path, pops and
copies), and each preserves the invariant; the paths through the broken
`_dedup_item` raise before writing anything, so failed updates leave the
previous (invariant-satisfying) state in place. -/
theorem C3_bijection_invariant {K V : Type} [DecidableEq K] [DecidableEq V]
    (bd : Bidict K V) (h : Reachable bd) :
    size bd = size bd.inverse ∧
    (∀ k v, bd.fwdm.lookup k = some v ↔ bd.invm.lookup v = some k) :=
  ⟨good_size_eq (reachable_good h), reachable_good h⟩

/-- Witness: the state `{1: 10, 2: 20}` is reachable (constructed from a
trusted bidirectional-mapping source along the no-dup-check fast path) and
satisfies the invariant. -/
theorem C3_bijection_invariant_witness :
    Reachable exmapN ∧
      (size exmapN = size exmapN.inverse ∧
        (∀ k v, exmapN.fwdm.lookup k = some v ↔ exmapN.invm.lookup v = some k)) := by
  have hr : Reachable exmapN :=
    @Reachable.construct ℕ ℕ _ _ true ON_DUP_DEFAULT [(1, 10), (2, 20)] exmapN
      (fun _ => ⟨by decide, by decide⟩) (by decide)
  exact ⟨hr, C3_bijection_invariant exmapN hr⟩

/-- C4: the claim says `put` of an exactly-present pair is a no-op under
every policy, the `_already_have` agreement check deciding it.  As written
the no-op branch is unreachable: `_dedup_item` raises `NameError` at line
322, before `_already_have` is consulted.  Shown on `{1: "a", 2: "b"}`,
which contains the exact pair `(1, "a")`: `put(1, "a")` raises the
`NameError` under all-RAISE, returns no-op under no policy, and raises no
`DuplicationError` either (so the failure is not a duplication error — but
neither is it the claimed silent success). -/
theorem C4_exact_pair_put_crashes :
    exmap2.fwdm.lookup 1 = some "a" ∧
    put_asWritten exmap2 1 "a" ON_DUP_RAISE = .error (.NameError "_Marker") ∧
    (∀ od : OnDup, put_asWritten exmap2 1 "a" od ≠ .ok exmap2) ∧
    (∀ (od : OnDup) (e : DuplicationError ℕ String),
      put_asWritten exmap2 1 "a" od ≠ .error (.dup e)) := by
  refine ⟨by decide, rfl, ?_, ?_⟩
  · intro od h
    rw [put_asWritten_crash] at h
    exact Except.noConfusion h
  · intro od e h
    rw [put_asWritten_crash] at h
    exact PyError.noConfusion (Except.error.inj h)

/-- C5: the write primitive `_write_item` itself does exactly what the claim
says — on the claim's example `{1: "a", 2: "b"}` with both sides duplicated
against different entries, it produces exactly the one-element map
`{1: "b"}`.  But as written no "proceed" decision ever reaches it:
`_dedup_item` never returns a `_DedupResult` (it raises `NameError` first),
so `put(1, "b")` with OVERWRITE everywhere raises instead of producing
`{1: "b"}`. -/
theorem C5_write_primitive_unreached {K V : Type} [DecidableEq K] [DecidableEq V] :
    (write_item exmap2 1 "b" ⟨true, true, some 2, some "a"⟩).1 =
        insertPair (empty : Bidict ℕ String) 1 "b" ∧
    (∀ (bd : Bidict K V) (k : K) (v : V) (od : OnDup) (dr : DedupResult K V),
      dedup_item_asWritten bd k v od ≠ .ok (some dr)) ∧
    put_asWritten exmap2 1 "b" ON_DUP_DROP_OLD = .error (.NameError "_Marker") ∧
    put_asWritten exmap2 1 "b" ON_DUP_DROP_OLD ≠
      .ok (insertPair (empty : Bidict ℕ String) 1 "b") := by
  refine ⟨by decide, ?_, rfl, ?_⟩
  · intro bd k v od dr h
    rw [dedup_item_asWritten_crash] at h
    exact Except.noConfusion h
  · intro h
    rw [put_asWritten_crash] at h
    exact Except.noConfusion h

/-- C7: the equality predicate itself is as claimed — `__eq__`'s
one-directional item check plus the length check is equivalent to equal
length with two-directional containment.  But the claim's consequence fails
as written: building the same duplicate-free pairs in two insertion orders
does not yield equal maps, because any checked (non-fast-path) construction
raises the `NameError` on its first item; both orders crash rather than
build. -/
theorem C7_eq_faithful_build_crashes {K V : Type} [DecidableEq K] [DecidableEq V] :
    (∀ a b : Bidict K V,
      beq a b ↔
        (size a = size b ∧
          (∀ k v, b.fwdm.lookup k = some v → a.fwdm.lookup k = some v) ∧
          (∀ k v, a.fwdm.lookup k = some v → b.fwdm.lookup k = some v))) ∧
    fromItems_asWritten false ON_DUP_DEFAULT [(1, "a"), (2, "b")] =
      .error (.NameError "_Marker", (empty : Bidict ℕ String)) ∧
    fromItems_asWritten false ON_DUP_DEFAULT [(2, "b"), (1, "a")] =
      .error (.NameError "_Marker", (empty : Bidict ℕ String)) ∧
    (∀ a b : Bidict ℕ String,
      fromItems_asWritten false ON_DUP_DEFAULT [(1, "a"), (2, "b")] ≠ .ok a ∧
      fromItems_asWritten false ON_DUP_DEFAULT [(2, "b"), (1, "a")] ≠ .ok b) := by
  have h1 : fromItems_asWritten false ON_DUP_DEFAULT [(1, "a"), (2, "b")] =
      .error (.NameError "_Marker", (empty : Bidict ℕ String)) := by decide
  have h2 : fromItems_asWritten false ON_DUP_DEFAULT [(2, "b"), (1, "a")] =
      .error (.NameError "_Marker", (empty : Bidict ℕ String)) := by decide
  refine ⟨fun a b => beq_iff, h1, h2, fun a b => ⟨fun h => ?_, fun h => ?_⟩⟩
  · rw [h1] at h
    exact Except.noConfusion h
  · rw [h2] at h
    exact Except.noConfusion h

/-- C8: the claim says constructing from a valid source bidict (the
no-dup-check fast path) equals running the full dedup-checked insertion over
the same items.  As written the two sides disagree on every nonempty source:
the fast path completes (shown generically, and concretely building
`{1: 10, 2: 20}`), while both checked paths raise the `NameError` on their
first item instead of producing any map. -/
theorem C8_fast_path_not_matched {K V : Type} [DecidableEq K] [DecidableEq V] :
    (∀ (od : OnDup) (k : K) (v : V) (rest : List (K × V)),
      update_asWritten (empty : Bidict K V) true true od ((k, v) :: rest) =
        .ok (update_no_dup_check empty ((k, v) :: rest))) ∧
    (∀ (od : OnDup) (k : K) (v : V) (rest : List (K × V)),
      update_with_rollback_asWritten (empty : Bidict K V) od ((k, v) :: rest) =
        .error (.NameError "_Marker", empty)) ∧
    fromItems_asWritten true ON_DUP_DEFAULT [(1, 10), (2, 20)] = .ok exmapN ∧
    update_with_rollback_asWritten (empty : Bidict ℕ ℕ) ON_DUP_DEFAULT
        [(1, 10), (2, 20)] = .error (.NameError "_Marker", empty) ∧
    update_no_rollback_asWritten (empty : Bidict ℕ ℕ) ON_DUP_DEFAULT
        [(1, 10), (2, 20)] = .error (.NameError "_Marker", empty) :=
  ⟨fun od k v rest => update_asWritten_fast_path true od (by simp) rfl,
    fun od k v rest => update_with_rollback_asWritten_cons empty od k v rest,
    by decide,
    update_with_rollback_asWritten_cons empty ON_DUP_DEFAULT 1 10 [(2, 20)],
    update_no_rollback_asWritten_cons empty ON_DUP_DEFAULT 1 10 [(2, 20)]⟩

/-- C10: the default-policy values are exactly as claimed — `OnDup()` has
`key = DROP_OLD`, `val = RAISE`, `kv = RAISE` per the NamedTuple defaults in
`_dup.py`.  The claimed behaviour under those defaults is not delivered by
the code as written: on `{1: "a", 2: "b"}` a key-only collision
`put(1, "c")` raises the `NameError` instead of silently overwriting to
`{1: "c", 2: "b"}`, and a value-only collision `put(3, "a")` raises the
`NameError` rather than any duplication error. -/
theorem C10_default_policy_crash :
    (ON_DUP_DEFAULT.key = OnDupAction.DROP_OLD ∧
      ON_DUP_DEFAULT.val = OnDupAction.RAISE ∧
      ON_DUP_DEFAULT.kv = OnDupAction.RAISE) ∧
    put_asWritten exmap2 1 "c" ON_DUP_DEFAULT = .error (.NameError "_Marker") ∧
    put_asWritten exmap2 1 "c" ON_DUP_DEFAULT ≠
      .ok (insertPair (erasePair exmap2 1 "a") 1 "c") ∧
    (∀ e : DuplicationError ℕ String,
      put_asWritten exmap2 3 "a" ON_DUP_DEFAULT ≠ .error (.dup e)) := by
  refine ⟨⟨rfl, rfl, rfl⟩, rfl, ?_, ?_⟩
  · intro h
    rw [put_asWritten_crash] at h
    exact Except.noConfusion h
  · intro e h
    rw [put_asWritten_crash] at h
    exact PyError.noConfusion (Except.error.inj h)


/-! ## List-cell lemmas for the heap model -/

theorem list_getD_set_ne {α : Type} (l : List α) {i j : ℕ} (h : i ≠ j)
    (a : α) (d : α) : (l.set i a).getD j d = l.getD j d := by
  simp [List.getD_eq_getElem?_getD, List.getElem?_set_ne h]

theorem list_getD_concat_length {α : Type} (l : List α) (a d : α) :
    (l ++ [a]).getD l.length d = a := by
  simp [List.getD_eq_getElem?_getD, List.getElem?_concat_length]

theorem list_getD_append_left {α : Type} (l l2 : List α) {i : ℕ}
    (h : i < l.length) (d : α) : (l ++ l2).getD i d = l.getD i d := by
  simp [List.getD_eq_getElem?_getD, List.getElem?_append, h]

/-- A write through one object does not change the contents seen through an
object wired to different cells. -/
theorem state_writeItemF_other {K V : Type} [DecidableEq K] [DecidableEq V]
    (h2 : Heap K V) (a b : ObjF) (k : K) (v : V) (dr : DedupResult K V)
    (hfw : a.fwd ≠ b.fwd) (hin : a.inv ≠ b.inv) :
    ObjF.state (writeItemF h2 a k v dr) b = ObjF.state h2 b := by
  show (⟨(h2.fstores.set a.fwd _).getD b.fwd ∅,
    (h2.gstores.set a.inv _).getD b.inv ∅⟩ : Bidict K V) =
    ⟨h2.fstores.getD b.fwd ∅, h2.gstores.getD b.inv ∅⟩
  rw [list_getD_set_ne _ hfw, list_getD_set_ne _ hin]

/-- C6: the inverse view of the inverse view is the original object itself —
the same instance wired to the same two backing stores (so a mutation
performed through either is a mutation of the other's stores), and repeated
access to the view, while the strong holder is alive, allocates nothing: the
heap comes back untouched and no second paired instance appears. -/
theorem C6_inverse_of_inverse {K V : Type} [DecidableEq K] [DecidableEq V]
    (h : Heap K V) (o : ObjF) (k : K) (v : V) :
    inverseViewR (inverseViewF o) = o ∧
    inverseAccessR (inverseAccessF h o).1 (inverseAccessF h o).2 = (h, o) ∧
    ObjR.state h (inverseViewF o) = (ObjF.state h o).inverse ∧
    writeItemR h (inverseViewF o) v k NODUP = writeItemF h o k v NODUP :=
  ⟨rfl, rfl, rfl, rfl⟩

/-- C9: `copy()` produces a new instance equal in contents to the original,
whose forward and inverse stores are fresh cells not shared with the
original (and to which the copy's own inverse pair is wired); thereafter a
mutation through the copy leaves the original unchanged and a mutation
through the original leaves the copy unchanged. -/
theorem C9_copy_independence {K V : Type} [DecidableEq K] [DecidableEq V]
    (h : Heap K V) (o : ObjF) (hval : ObjF.valid h o) (k : K) (v : V)
    (dr : DedupResult K V) :
    ((copyF h o).2.fwd ≠ o.fwd ∧ (copyF h o).2.inv ≠ o.inv) ∧
    ObjF.state (copyF h o).1 (copyF h o).2 = ObjF.state h o ∧
    ObjF.state (copyF h o).1 o = ObjF.state h o ∧
    ObjF.state (writeItemF (copyF h o).1 (copyF h o).2 k v dr) o =
      ObjF.state (copyF h o).1 o ∧
    ObjF.state (writeItemF (copyF h o).1 o k v dr) (copyF h o).2 =
      ObjF.state (copyF h o).1 (copyF h o).2 := by
  obtain ⟨hf, hg2⟩ := hval
  have key1 : (copyF h o).2.fwd ≠ o.fwd := Ne.symm (Nat.ne_of_lt hf)
  have key2 : (copyF h o).2.inv ≠ o.inv := Ne.symm (Nat.ne_of_lt hg2)
  refine ⟨⟨key1, key2⟩, ?_, ?_, ?_, ?_⟩
  · show (⟨(h.fstores ++ [Heap.getF h o.fwd]).getD h.fstores.length ∅,
      (h.gstores ++ [Heap.getG h o.inv]).getD h.gstores.length ∅⟩ : Bidict K V) =
      ⟨Heap.getF h o.fwd, Heap.getG h o.inv⟩
    rw [list_getD_concat_length, list_getD_concat_length]
  · show (⟨(h.fstores ++ [Heap.getF h o.fwd]).getD o.fwd ∅,
      (h.gstores ++ [Heap.getG h o.inv]).getD o.inv ∅⟩ : Bidict K V) =
      ⟨h.fstores.getD o.fwd ∅, h.gstores.getD o.inv ∅⟩
    rw [list_getD_append_left _ _ hf, list_getD_append_left _ _ hg2]
  · exact state_writeItemF_other _ _ _ _ _ _ key1 key2
  · exact state_writeItemF_other _ _ _ _ _ _ (Ne.symm key1) (Ne.symm key2)

theorem C9_copy_independence_witness :
    ObjF.valid (⟨[exmapN.fwdm], [exmapN.invm]⟩ : Heap ℕ ℕ) ⟨0, 0⟩ ∧
    ((copyF (⟨[exmapN.fwdm], [exmapN.invm]⟩ : Heap ℕ ℕ) ⟨0, 0⟩).2.fwd ≠ 0 ∧
      (copyF (⟨[exmapN.fwdm], [exmapN.invm]⟩ : Heap ℕ ℕ) ⟨0, 0⟩).2.inv ≠ 0) ∧
    ObjF.state (copyF (⟨[exmapN.fwdm], [exmapN.invm]⟩ : Heap ℕ ℕ) ⟨0, 0⟩).1
        (copyF (⟨[exmapN.fwdm], [exmapN.invm]⟩ : Heap ℕ ℕ) ⟨0, 0⟩).2 =
      ObjF.state (⟨[exmapN.fwdm], [exmapN.invm]⟩ : Heap ℕ ℕ) ⟨0, 0⟩ ∧
    ObjF.state
        (writeItemF (copyF (⟨[exmapN.fwdm], [exmapN.invm]⟩ : Heap ℕ ℕ) ⟨0, 0⟩).1
          (copyF (⟨[exmapN.fwdm], [exmapN.invm]⟩ : Heap ℕ ℕ) ⟨0, 0⟩).2 5 50 NODUP)
        ⟨0, 0⟩ =
      ObjF.state (copyF (⟨[exmapN.fwdm], [exmapN.invm]⟩ : Heap ℕ ℕ) ⟨0, 0⟩).1 ⟨0, 0⟩ := by
  have hval : ObjF.valid (⟨[exmapN.fwdm], [exmapN.invm]⟩ : Heap ℕ ℕ) ⟨0, 0⟩ :=
    ⟨by decide, by decide⟩
  have hc := C9_copy_independence (⟨[exmapN.fwdm], [exmapN.invm]⟩ : Heap ℕ ℕ)
    ⟨0, 0⟩ hval 5 50 NODUP
  exact ⟨hval, hc.1, hc.2.1, hc.2.2.2.1⟩

end Bidict

end BidictSpec
